import Mathlib

/-!
Verification of the discount-authorization and signed-capability-token
subsystem of `app_rete.py` (Calculadora de Retención UF → CLP).

Shallow embedding conventions:
  * byte strings are `List Nat` with every element < 256;
  * Python floats occurring in the app (UI-bounded percentage values and
    money amounts) are embedded as `ℚ`; the payload percentages that the
    app serializes are decimal values `m / 100`, for which the embedded
    decimal printer agrees with the shortest-round-trip float `repr` of Python;
  * `time.time()` is passed explicitly as a `now : Nat` parameter;
  * fallible operations (`base64` decoding, `rsplit` unpacking, JSON
    parsing) return `Option`; the `try/except` wrapper of
    `verify_flash_token` maps a failed step to a malformed-token error;
  * SHA-256 and HMAC are implemented bit-for-bit (words are `Nat` taken
    mod 2^32) so that concrete tokens evaluate to their real tags.
-/

set_option maxRecDepth 1000000
set_option maxHeartbeats 4000000

/-! ### SHA-256 over byte lists (words as `Nat` mod 2^32) -/

def m32 : Nat := 4294967296

def rotr (n x : Nat) : Nat := ((x >>> n) ||| (x <<< (32 - n))) % m32

def smallSigma0 (x : Nat) : Nat := (rotr 7 x) ^^^ (rotr 18 x) ^^^ (x >>> 3)

def smallSigma1 (x : Nat) : Nat := (rotr 17 x) ^^^ (rotr 19 x) ^^^ (x >>> 10)

def bigSigma0 (x : Nat) : Nat := (rotr 2 x) ^^^ (rotr 13 x) ^^^ (rotr 22 x)

def bigSigma1 (x : Nat) : Nat := (rotr 6 x) ^^^ (rotr 11 x) ^^^ (rotr 25 x)

def chV (x y z : Nat) : Nat := (x &&& y) ^^^ ((x ^^^ 4294967295) &&& z)

def majV (x y z : Nat) : Nat := (x &&& y) ^^^ (x &&& z) ^^^ (y &&& z)

def shaK : List Nat := [
  1116352408, 1899447441, 3049323471, 3921009573, 961987163, 1508970993,
  2453635748, 2870763221, 3624381080, 310598401, 607225278, 1426881987,
  1925078388, 2162078206, 2614888103, 3248222580, 3835390401, 4022224774,
  264347078, 604807628, 770255983, 1249150122, 1555081692, 1996064986,
  2554220882, 2821834349, 2952996808, 3210313671, 3336571891, 3584528711,
  113926993, 338241895, 666307205, 773529912, 1294757372, 1396182291,
  1695183700, 1986661051, 2177026350, 2456956037, 2730485921, 2820302411,
  3259730800, 3345764771, 3516065817, 3600352804, 4094571909, 275423344,
  430227734, 506948616, 659060556, 883997877, 958139571, 1322822218,
  1537002063, 1747873779, 1955562222, 2024104815, 2227730452, 2361852424,
  2428436474, 2756734187, 3204031479, 3329325298]

def shaH0 : List Nat := [
  1779033703, 3144134277, 1013904242, 2773480762,
  1359893119, 2600822924, 528734635, 1541459225]

def bytesToWords : List Nat → List Nat
  | a :: b :: c :: d :: rest => (((a * 256 + b) * 256 + c) * 256 + d) :: bytesToWords rest
  | _ => []

def wordBytes (w : Nat) : List Nat :=
  [(w / 16777216) % 256, (w / 65536) % 256, (w / 256) % 256, w % 256]

def wordsToBytes (ws : List Nat) : List Nat := ws.foldr (fun w acc => wordBytes w ++ acc) []

def lenBytes64 (n : Nat) : List Nat := wordBytes (n / m32) ++ wordBytes (n % m32)

def padMsg (msg : List Nat) : List Nat :=
  let L := msg.length
  let z := (119 - (L % 64)) % 64
  msg ++ 128 :: List.replicate z 0 ++ lenBytes64 (L * 8)

def sched : Nat → List Nat → List Nat
  | 0, rws => rws
  | n + 1, rws =>
    let w := (smallSigma1 (rws.getD 1 0) + rws.getD 6 0 + smallSigma0 (rws.getD 14 0) + rws.getD 15 0) % m32
    sched n (w :: rws)

def roundsGo : List Nat → List Nat → Nat → Nat → Nat → Nat → Nat → Nat → Nat → Nat → List Nat
  | [], _, a, b, c, d, e, f, g, h => [a, b, c, d, e, f, g, h]
  | _ :: _, [], a, b, c, d, e, f, g, h => [a, b, c, d, e, f, g, h]
  | k :: ks, w :: ws, a, b, c, d, e, f, g, h =>
    let t1 := (h + bigSigma1 e + chV e f g + k + w) % m32
    let t2 := (bigSigma0 a + majV a b c) % m32
    roundsGo ks ws ((t1 + t2) % m32) a b c ((d + t1) % m32) e f g

def compress (hs : List Nat) (block : List Nat) : List Nat :=
  let ws := (sched 48 (bytesToWords block).reverse).reverse
  let out := roundsGo shaK ws (hs.getD 0 0) (hs.getD 1 0) (hs.getD 2 0) (hs.getD 3 0)
      (hs.getD 4 0) (hs.getD 5 0) (hs.getD 6 0) (hs.getD 7 0)
  List.zipWith (fun x y => (x + y) % m32) hs out

def compressChunks : Nat → List Nat → List Nat → List Nat
  | 0, hs, _ => hs
  | n + 1, hs, bytes => compressChunks n (compress hs (bytes.take 64)) (bytes.drop 64)

def sha256 (msg : List Nat) : List Nat :=
  let p := padMsg msg
  wordsToBytes (compressChunks (p.length / 64) shaH0 p)

/-- HMAC-SHA256 over byte lists, as computed by `hmac.new(key, msg, hashlib.sha256)`. -/
def hmacSha256 (key msg : List Nat) : List Nat :=
  let kk := if key.length > 64 then sha256 key else key
  let k0 := kk ++ List.replicate (64 - kk.length) 0
  let ipad := k0.map (fun b => b ^^^ 0x36)
  let opad := k0.map (fun b => b ^^^ 0x5c)
  sha256 (opad ++ sha256 (ipad ++ msg))

/-- Model of `hmac.compare_digest`: equality of the two byte strings
(`compare_digest` returns `False` whenever lengths differ; timing behavior is
outside the embedding). -/
def compareDigest (a b : List Nat) : Bool := a == b

/-! ### URL-safe base64 (`base64.urlsafe_b64encode` / `urlsafe_b64decode`) -/

/-- The URL-safe base64 alphabet: sextet index to ASCII code. -/
def sextetChar (n : Nat) : Nat :=
  if n < 26 then 65 + n
  else if n < 52 then 97 + (n - 26)
  else if n < 62 then 48 + (n - 52)
  else if n = 62 then 45
  else 95

/-- ASCII code back to sextet index; `none` for characters outside the alphabet. -/
def charSextet (c : Nat) : Option Nat :=
  if 65 ≤ c ∧ c ≤ 90 then some (c - 65)
  else if 97 ≤ c ∧ c ≤ 122 then some (26 + (c - 97))
  else if 48 ≤ c ∧ c ≤ 57 then some (52 + (c - 48))
  else if c = 45 then some 62
  else if c = 95 then some 63
  else none

/-- `base64.urlsafe_b64encode` on byte lists (61 is the ASCII pad character). -/
def b64encodeBytes : List Nat → List Nat
  | b1 :: b2 :: b3 :: rest =>
      sextetChar (b1 / 4) :: sextetChar ((b1 % 4) * 16 + b2 / 16) ::
      sextetChar ((b2 % 16) * 4 + b3 / 64) :: sextetChar (b3 % 64) :: b64encodeBytes rest
  | [b1, b2] => [sextetChar (b1 / 4), sextetChar ((b1 % 4) * 16 + b2 / 16), sextetChar ((b2 % 16) * 4), 61]
  | [b1] => [sextetChar (b1 / 4), sextetChar ((b1 % 4) * 16), 61, 61]
  | [] => []

/-- Decoding of the 4-character groups, with padding allowed in the final group. -/
def goQuads : List Nat → Option (List Nat)
  | [] => some []
  | a :: b :: c :: d :: rest =>
    if c = 61 then
      if d = 61 ∧ rest = [] then
        match charSextet a, charSextet b with
        | some x, some y => some [x * 4 + y / 16]
        | _, _ => none
      else none
    else if d = 61 then
      if rest = [] then
        match charSextet a, charSextet b, charSextet c with
        | some x, some y, some z => some [x * 4 + y / 16, (y % 16) * 16 + z / 4]
        | _, _, _ => none
      else none
    else
      match charSextet a, charSextet b, charSextet c, charSextet d, goQuads rest with
      | some x, some y, some z, some w, some tail =>
          some ((x * 4 + y / 16) :: ((y % 16) * 16 + z / 4) :: ((z % 4) * 64 + w) :: tail)
      | _, _, _, _, _ => none
  | _ => none

/-- Model of `base64.urlsafe_b64decode`: characters outside the alphabet are
discarded (CPython decodes with `validate=False`), the remaining length must be
a multiple of 4, and the groups are decoded; any failure is an exception in the
source, modeled as `none`. -/
def b64decode (s : List Nat) : Option (List Nat) :=
  let t := s.filter (fun c => (charSextet c).isSome || c == 61)
  if t.length % 4 = 0 then goQuads t else none

/-! ### `data.rsplit(b".", 1)` -/

/-- Split at the last 0x2e byte: `rsplitDot data = some (front, back)` with
`data = front ++ 0x2e :: back` and no 0x2e in `back`; `none` when no 0x2e occurs
(in the source the two-name unpacking then raises, caught by the wrapper). -/
def rsplitDot : List Nat → Option (List Nat × List Nat)
  | [] => none
  | b :: rest =>
    match rsplitDot rest with
    | some (front, back) => some (b :: front, back)
    | none => if b = 46 then some ([], rest) else none

/-! ### Decimal digits: printing and parsing -/

/-- Auxiliary digit printer; the fuel argument only bounds recursion depth and
is always passed a value at least as large as `n`. -/
def natDigitsGo : Nat → Nat → List Nat → List Nat
  | 0, n, acc => (48 + n % 10) :: acc
  | fuel + 1, n, acc => if n < 10 then (48 + n) :: acc else natDigitsGo fuel (n / 10) ((48 + n % 10) :: acc)

/-- ASCII decimal digits of `n`, most significant first (as Python prints an int). -/
def natDigits (n : Nat) : List Nat := natDigitsGo n n []

/-- Greedily consume ASCII digits: returns (value, number of digits, rest). -/
def parseDigits : List Nat → Nat × Nat × List Nat
  | [] => (0, 0, [])
  | c :: rest =>
    if 48 ≤ c ∧ c ≤ 57 then
      let r := parseDigits rest
      ((c - 48) * 10 ^ r.2.1 + r.1, r.2.1 + 1, r.2.2)
    else (0, 0, c :: rest)

/-- Value of a list of ASCII digits, most significant first. -/
def dval : List Nat → Nat
  | [] => 0
  | c :: r => (c - 48) * 10 ^ r.length + dval r

/-- The first character, if any, is not an ASCII digit. -/
def headNotDigit : List Nat → Prop
  | [] => True
  | c :: _ => ¬(48 ≤ c ∧ c ≤ 57)

/-! ### Decimal number printing and parsing (Python float `repr` / JSON numbers)

The payload numbers written by the app are Python floats whose value is a
decimal `m / 100` with `m : ℕ` (the UI bounds the percentages to [0, 80] with
step 1).  For such values the shortest round-trip `repr` of Python — which is what
`json.dumps` emits — is the plain decimal form with trailing zeros stripped
(and a trailing `.0` for integral values); `decRepr` reproduces exactly that
byte string. -/

def decRepr (q : ℚ) : List Nat :=
  let m := (q * 100).floor.toNat
  natDigits (m / 100) ++ 46 ::
    (if m % 100 = 0 then [48]
     else if m % 10 = 0 then [48 + (m % 100) / 10]
     else [48 + (m % 100) / 10, 48 + m % 10])

/-- Parser for the decimal form emitted by `decRepr` (a JSON number with a
mandatory fractional part, which is how Python prints every finite float). -/
def parseDecimal (s : List Nat) : Option (ℚ × List Nat) :=
  let r1 := parseDigits s
  if r1.2.1 = 0 then none
  else
    match r1.2.2 with
    | c :: r2 =>
      if c = 46 then
        let rf := parseDigits r2
        if rf.2.1 = 0 then none
        else some ((r1.1 : ℚ) + (rf.1 : ℚ) / 10 ^ rf.2.1, rf.2.2)
      else none
    | [] => none

/-! ### The token payload and its canonical JSON serialization

`make_flash_token` builds `{"exp": ..., "n1": ..., "tel": ..., "v": 1}` and
serializes it with `json.dumps(payload, separators=(",", ":"))`; since Python
3.7 `dict` preserves insertion order, so the canonical byte string is exactly
the key order below with no whitespace. -/

structure FlashPayload where
  exp : Nat
  n1 : ℚ
  tel : ℚ
  v : Nat
deriving DecidableEq

/-- ASCII bytes of the literal `{"exp":` . -/
def jexp : List Nat := [123, 34, 101, 120, 112, 34, 58]

/-- ASCII bytes of the literal `,"n1":` . -/
def jn1 : List Nat := [44, 34, 110, 49, 34, 58]

/-- ASCII bytes of the literal `,"tel":` . -/
def jtel : List Nat := [44, 34, 116, 101, 108, 34, 58]

/-- ASCII bytes of the literal `,"v":` . -/
def jv : List Nat := [44, 34, 118, 34, 58]

/-- ASCII bytes of the literal `}` . -/
def jend : List Nat := [125]

/-- `json.dumps(payload, separators=(",", ":")).encode()` for the flash payload. -/
def encodePayload (p : FlashPayload) : List Nat :=
  jexp ++ natDigits p.exp ++ jn1 ++ decRepr p.n1 ++ jtel ++ decRepr p.tel ++
    jv ++ natDigits p.v ++ jend

/-- Consume an expected literal from the front of the input. -/
def dropLit : List Nat → List Nat → Option (List Nat)
  | [], s => some s
  | _ :: _, [] => none
  | p :: ps, c :: cs => if c = p then dropLit ps cs else none

/-- Parse a nonempty run of digits as a natural number. -/
def parseNatPart (s : List Nat) : Option (Nat × List Nat) :=
  let r := parseDigits s
  if r.2.1 = 0 then none else some (r.1, r.2.2)

/-- Model of `json.loads` restricted to the canonical flash-payload format
(the only byte strings the app ever signs); any other JSON raises in the
subsequent field accesses and is treated as malformed. -/
def parsePayload (s : List Nat) : Option FlashPayload :=
  (dropLit jexp s).bind fun s1 =>
  (parseNatPart s1).bind fun r1 =>
  (dropLit jn1 r1.2).bind fun s3 =>
  (parseDecimal s3).bind fun r2 =>
  (dropLit jtel r2.2).bind fun s5 =>
  (parseDecimal s5).bind fun r3 =>
  (dropLit jv r3.2).bind fun s7 =>
  (parseNatPart s7).bind fun r4 =>
  (dropLit jend r4.2).bind fun s9 =>
  if s9 = [] then some ⟨r1.1, r2.1, r3.1, r4.1⟩ else none

/-! ### Flash tokens (`make_flash_token` / `verify_flash_token`) -/

/-- ASCII bytes of the built-in default key `dev-secret-change-me` (source line 90). -/
def default_token_key : List Nat :=
  [100, 101, 118, 45, 115, 101, 99, 114, 101, 116, 45, 99, 104, 97, 110, 103, 101, 45, 109, 101]

/-- `TOKEN_KEY = st.secrets.get("auth", {}).get("token_key", "dev-secret-change-me")`:
the configured signing key, or the built-in default when none is configured. -/
def TOKEN_KEY (cfg : Option (List Nat)) : List Nat := cfg.getD default_token_key

/-- Startup resolution of the signing key.  The Boolean records whether any
configuration error is surfaced when the key is missing: source line 90 is a
plain dictionary lookup with a default and the program branches on nothing
key-related, so the flag is constantly `false`. -/
def token_key_startup (cfg : Option (List Nat)) : List Nat × Bool := (TOKEN_KEY cfg, false)

/-- The payload dict built by `make_flash_token(hours, n1_pct, tel_pct)`:
`{"exp": int(time.time()) + hours*3600, "n1": float(n1_pct), "tel": float(tel_pct), "v": 1}`. -/
def flashPayload (now hours : Nat) (n1_pct tel_pct : ℚ) : FlashPayload :=
  ⟨now + hours * 3600, n1_pct, tel_pct, 1⟩

/-- `make_flash_token`: serialize the payload, tag it with HMAC-SHA256 under
`key`, and base64-encode `msg + b"." + sig`. -/
def make_flash_token (key : List Nat) (now hours : Nat) (n1_pct tel_pct : ℚ) : List Nat :=
  let msg := encodePayload (flashPayload now hours n1_pct tel_pct)
  let sig := hmacSha256 key msg
  b64encodeBytes (msg ++ 46 :: sig)

/-- The three failure kinds of `verify_flash_token`: a caught exception
(malformed token), `"Firma inválida"` (bad signature), `"Token vencido"`
(expired). -/
inductive VerifyErr where
  | malformed
  | badSignature
  | expired
deriving DecidableEq

inductive VerifyResult where
  | ok (p : FlashPayload)
  | err (e : VerifyErr)
deriving DecidableEq

/-- `verify_flash_token(token)` at time `now`: base64-decode, split at the
last `b"."`, recompute and compare the tag, parse the payload, check expiry.
Every failing step of the source returns `(False, reason)`; the surrounding
`try/except` turns exceptions (decode failure, unpack failure, JSON failure)
into the malformed case. -/
def verify_flash_token (key token : List Nat) (now : Nat) : VerifyResult :=
  match b64decode token with
  | none => .err .malformed
  | some data =>
    match rsplitDot data with
    | none => .err .malformed
    | some ms =>
      if compareDigest ms.2 (hmacSha256 key ms.1) then
        match parsePayload ms.1 with
        | none => .err .malformed
        | some p => if p.exp < now then .err .expired else .ok p
      else .err .badSignature

/-! ### Session state, `?flash=` handling, and active ceilings -/

/-- The session-scoped flash-override state: `st.session_state.flash_until`
(0 when absent, per `.get("flash_until", 0)`) and `st.session_state.flash_topes`
(the pair of fractions for Nivel 1 and Telecierre; `none` when absent). -/
structure Session where
  flash_until : Nat
  flash_topes : Option (ℚ × ℚ)
deriving DecidableEq

/-- A fresh session: neither flash key is present. -/
def session0 : Session := ⟨0, none⟩

/-- `flash_active()`: `st.session_state.get("flash_until", 0) > time.time()`. -/
def flash_active (s : Session) (now : Nat) : Bool := now < s.flash_until

/-- Lines 133–137: a successfully verified payload sets `flash_until = payload["exp"]`
and `flash_topes = {"Nivel 1": payload["n1"]/100, "Telecierre": payload["tel"]/100}`. -/
def applySession (p : FlashPayload) : Session := ⟨p.exp, some (p.n1 / 100, p.tel / 100)⟩

/-- Lines 129–143: handling of the `?flash=TOKEN` query parameter.  Returns the
new session state together with the warning surfaced on a failed verification
(`st.warning(f"Token Flash inválido: {payload}")`); `none` when the parameter
is absent or the token verified. -/
def apply_token_param (key : List Nat) (tokenParam : Option (List Nat)) (now : Nat)
    (s : Session) : Session × Option VerifyErr :=
  match tokenParam with
  | none => (s, none)
  | some tok =>
    match verify_flash_token key tok now with
    | .ok p => (applySession p, none)
    | .err e => (s, some e)

/-- The two retention tiers. -/
inductive Nivel where
  | nivel1
  | telecierre
deriving DecidableEq

/-- `TOPES_BASE = {"Nivel 1": 0.25, "Telecierre": 0.40}`. -/
def TOPES_BASE : Nivel → ℚ
  | .nivel1 => 0.25
  | .telecierre => 0.40

/-- The manager-edited flash ceilings: `TOPES_ACTIVOS[...] = top_.../100.0`,
where both inputs come from `st.number_input(..., min_value=0.0, max_value=80.0)`. -/
def manager_topes (top_n1 top_tel : ℚ) : Nivel → ℚ
  | .nivel1 => top_n1 / 100
  | .telecierre => top_tel / 100

/-- Ceilings taken from the applied token overrides of the session. -/
def token_topes (t : ℚ × ℚ) : Nivel → ℚ
  | .nivel1 => t.1
  | .telecierre => t.2

/-- Lines 159–194: the active ceilings.  Branch 1 (manager toggled Ofertas
Flash and is a manager) overwrites both tiers with the edited values; branch 2
(`elif flash_active()`) overwrites them with the token overrides of the session
(`TOPES_ACTIVOS.update(...)`, an empty update when the key is absent);
otherwise the base copy is left untouched. -/
def TOPES_ACTIVOS (is_manager activar_flash : Bool) (top_n1 top_tel : ℚ) (now : Nat)
    (s : Session) : Nivel → ℚ :=
  if activar_flash && is_manager then manager_topes top_n1 top_tel
  else if flash_active s now then
    match s.flash_topes with
    | some t => token_topes t
    | none => TOPES_BASE
  else TOPES_BASE

/-! ### Input parsing (`parse_num`, `cantidad`) -/

/-- Python `str.strip()` whitespace. -/
def isPyWS (c : Nat) : Bool := c = 32 || c = 9 || c = 10 || c = 13 || c = 11 || c = 12

/-- `str(s).strip()` on a byte string. -/
def stripWS (s : List Nat) : List Nat :=
  ((s.dropWhile isPyWS).reverse.dropWhile isPyWS).reverse

/-- `s.replace(".", "").replace(",", ".")`: drop thousands dots, comma becomes
the decimal point. -/
def cleanNum (s : List Nat) : List Nat :=
  ((stripWS s).filter (fun c => c ≠ 46)).map (fun c => if c = 44 then 46 else c)

/-- Model of Python `float(...)` on the cleaned string, restricted to finite
decimal literals `[sign] digits [. digits] [(e|E) [sign] digits]` (the forms
the numeric fields of the app can denote; non-finite literals are treated as
unparseable). -/
def pyFloatParse (s : List Nat) : Option ℚ :=
  let sg : Bool × List Nat :=
    match s with
    | 43 :: r => (false, r)
    | 45 :: r => (true, r)
    | _ => (false, s)
  let r1 := parseDigits sg.2
  let frac : Nat × Nat × List Nat :=
    match r1.2.2 with
    | 46 :: r2 =>
      let rf := parseDigits r2
      (rf.1, rf.2.1, rf.2.2)
    | other => (0, 0, other)
  if r1.2.1 + frac.2.1 = 0 then none
  else
    let mag : ℚ := (r1.1 : ℚ) + (frac.1 : ℚ) / 10 ^ frac.2.1
    let signed : ℚ := if sg.1 then -mag else mag
    match frac.2.2 with
    | [] => some signed
    | c :: r3 =>
      if c = 101 ∨ c = 69 then
        let esg : Bool × List Nat :=
          match r3 with
          | 43 :: r4 => (false, r4)
          | 45 :: r4 => (true, r4)
          | _ => (false, r3)
        let re := parseDigits esg.2
        if re.2.1 = 0 then none
        else if re.2.2 ≠ [] then none
        else if esg.1 then some (signed / 10 ^ re.1) else some (signed * 10 ^ re.1)
      else none

/-- `parse_num(s, default)`: clean the string and parse it; any exception
returns the default (the `try/except` wraps the whole body). -/
def parse_num (s : List Nat) (default : ℚ) : ℚ := (pyFloatParse (cleanNum s)).getD default

/-- Python `int(...)` on a float value: truncation toward zero. -/
def pyInt (q : ℚ) : ℤ := if 0 ≤ q then q.floor else q.ceil

/-- Lines 251–254: `cantidad = max(int(parse_num(cant_txt, 1)), 1)`, with the
surrounding `try/except` falling back to 1. -/
def cantidad (s : List Nat) : ℤ := max (pyInt (parse_num s 1)) 1

/-! ### Discount engine (lines 259–282) -/

def IVA_RATE : ℚ := 0.19

def precio_unitario_clp_neto (precio_uf uf_valor : ℚ) : ℚ := precio_uf * uf_valor

def neto (precio_uf uf_valor : ℚ) (cant : ℤ) : ℚ :=
  precio_unitario_clp_neto precio_uf uf_valor * cant

def iva_incluido (precio_uf uf_valor : ℚ) (cant : ℤ) : ℚ :=
  neto precio_uf uf_valor cant * IVA_RATE

def subtotal (precio_uf uf_valor : ℚ) (cant : ℤ) : ℚ :=
  neto precio_uf uf_valor cant + iva_incluido precio_uf uf_valor cant

def porcentaje_solicitado (precio_uf uf_valor : ℚ) (cant : ℤ) (monto_descuento_ing : ℚ) : ℚ :=
  if 0 < subtotal precio_uf uf_valor cant
  then monto_descuento_ing / subtotal precio_uf uf_valor cant * 100
  else 0

def monto_tope (precio_uf uf_valor : ℚ) (cant : ℤ) (max_desc : ℚ) : ℚ :=
  subtotal precio_uf uf_valor cant * max_desc

def excede_tope (precio_uf uf_valor : ℚ) (cant : ℤ) (monto_descuento_ing max_desc : ℚ) : Bool :=
  monto_tope precio_uf uf_valor cant max_desc < monto_descuento_ing

def monto_aplicado (precio_uf uf_valor : ℚ) (cant : ℤ) (monto_descuento_ing max_desc : ℚ) : ℚ :=
  min monto_descuento_ing (monto_tope precio_uf uf_valor cant max_desc)

def porcentaje_aplicado (precio_uf uf_valor : ℚ) (cant : ℤ) (monto_descuento_ing max_desc : ℚ) : ℚ :=
  if 0 < subtotal precio_uf uf_valor cant
  then monto_aplicado precio_uf uf_valor cant monto_descuento_ing max_desc /
    subtotal precio_uf uf_valor cant * 100
  else 0

def DescuentoCLP (precio_uf uf_valor : ℚ) (cant : ℤ) (monto_descuento_ing max_desc : ℚ) : ℚ :=
  monto_aplicado precio_uf uf_valor cant monto_descuento_ing max_desc

def TotalCLP (precio_uf uf_valor : ℚ) (cant : ℤ) (monto_descuento_ing max_desc : ℚ) : ℚ :=
  max (subtotal precio_uf uf_valor cant -
    DescuentoCLP precio_uf uf_valor cant monto_descuento_ing max_desc) 0

/-! ### The reachable active-ceiling states (claim C4)

The three ways the program arrives at `TOPES_ACTIVOS` (lines 159–194): the
untouched base copy, a direct manager Flash edit (both `number_input` widgets are
bounded to [0, 80]), and a session override written by a verified token that
the program itself minted (the `number_input` widgets of the mint panel are bounded to
[0, 80]; `m/100` ranges over every such two-decimal percentage). -/
inductive ReachableTopes : (Nivel → ℚ) → Prop where
  | base (im af : Bool) (e1 e2 : ℚ) (now : Nat) (s : Session) :
      (af && im) = false → flash_active s now = false →
      ReachableTopes (TOPES_ACTIVOS im af e1 e2 now s)
  | manager (e1 e2 : ℚ) (now : Nat) (s : Session) :
      0 ≤ e1 → e1 ≤ 80 → 0 ≤ e2 → e2 ≤ 80 →
      ReachableTopes (TOPES_ACTIVOS true true e1 e2 now s)
  | token (key : List Nat) (mintNow hrs verNow laterNow : Nat) (m1 m2 : ℕ) (p : FlashPayload)
      (af : Bool) (e1 e2 : ℚ) :
      m1 ≤ 8000 → m2 ≤ 8000 →
      verify_flash_token key
        (make_flash_token key mintNow hrs ((m1 : ℚ) / 100) ((m2 : ℚ) / 100)) verNow = .ok p →
      ReachableTopes (TOPES_ACTIVOS false af e1 e2 laterNow (applySession p))

/-! ### Lemmas and claim theorems -/

theorem roundsGo_length (ks ws : List Nat) (a b c d e f g h : Nat) :
    (roundsGo ks ws a b c d e f g h).length = 8 := by
  induction ks generalizing ws a b c d e f g h with
  | nil => simp [roundsGo]
  | cons k ks ih =>
    cases ws with
    | nil => simp [roundsGo]
    | cons w ws => simpa [roundsGo] using ih ..

theorem compress_length (hs block : List Nat) (hh : hs.length = 8) :
    (compress hs block).length = 8 := by
  simp [compress, roundsGo_length, hh]

theorem compressChunks_length (n : Nat) (hs bytes : List Nat) (hh : hs.length = 8) :
    (compressChunks n hs bytes).length = 8 := by
  induction n generalizing hs bytes with
  | zero => simpa [compressChunks]
  | succ n ih => simpa [compressChunks] using ih _ _ (compress_length _ _ hh)

theorem wordsToBytes_cons (w : Nat) (ws : List Nat) :
    wordsToBytes (w :: ws) = wordBytes w ++ wordsToBytes ws := rfl

theorem wordsToBytes_length (ws : List Nat) : (wordsToBytes ws).length = 4 * ws.length := by
  induction ws with
  | nil => rfl
  | cons w ws ih =>
    rw [wordsToBytes_cons]
    simp [wordBytes, ih]
    omega

theorem sha256_length (msg : List Nat) : (sha256 msg).length = 32 := by
  simp only [sha256]
  rw [wordsToBytes_length, compressChunks_length _ _ _ (by simp [shaH0])]

theorem hmacSha256_length (key msg : List Nat) : (hmacSha256 key msg).length = 32 := by
  simp [hmacSha256, sha256_length]

theorem wordsToBytes_lt (ws : List Nat) : ∀ b ∈ wordsToBytes ws, b < 256 := by
  induction ws with
  | nil => simp [wordsToBytes]
  | cons w ws ih =>
    rw [wordsToBytes_cons]
    intro b hb
    rcases List.mem_append.1 hb with hb | hb
    · simp [wordBytes] at hb
      rcases hb with h | h | h | h <;> omega
    · exact ih b hb

theorem sha256_lt (msg : List Nat) : ∀ b ∈ sha256 msg, b < 256 := by
  simpa [sha256] using wordsToBytes_lt _

theorem hmacSha256_lt (key msg : List Nat) : ∀ b ∈ hmacSha256 key msg, b < 256 := by
  simpa [hmacSha256] using sha256_lt _

theorem compareDigest_ne_length {a b : List Nat} (h : a.length ≠ b.length) :
    compareDigest a b = false := by
  simp only [compareDigest, beq_eq_false_iff_ne, ne_eq]
  intro he
  exact h (by rw [he])

theorem rsplitDot_of_not_mem {l : List Nat} (h : 46 ∉ l) : rsplitDot l = none := by
  induction l with
  | nil => rfl
  | cons b rest ih =>
    have hb : b ≠ 46 := by intro he; exact h (by simp [he])
    have : rsplitDot rest = none := ih (fun hm => h (List.mem_cons_of_mem _ hm))
    simp [rsplitDot, this, hb]

theorem rsplitDot_append_sep {msg sig : List Nat} (h : 46 ∉ sig) :
    rsplitDot (msg ++ 46 :: sig) = some (msg, sig) := by
  induction msg with
  | nil => simp [rsplitDot, rsplitDot_of_not_mem h]
  | cons b rest ih => simp [rsplitDot, ih]

theorem rsplitDot_append_inner {msg sig front back : List Nat}
    (h : rsplitDot sig = some (front, back)) :
    rsplitDot (msg ++ 46 :: sig) = some (msg ++ 46 :: front, back) := by
  induction msg with
  | nil => simp [rsplitDot, h]
  | cons b rest ih => simp [rsplitDot, ih]

theorem rsplitDot_shape : ∀ {l front back : List Nat},
    rsplitDot l = some (front, back) → l = front ++ 46 :: back := by
  intro l
  induction l with
  | nil => intro front back h; simp [rsplitDot] at h
  | cons b rest ih =>
    intro front back h
    simp only [rsplitDot] at h
    rcases hr : rsplitDot rest with _ | ⟨f, bk⟩
    · rw [hr] at h
      by_cases hb : b = 46
      · simp [hb] at h
        obtain ⟨h1, h2⟩ := h
        subst h1
        subst h2
        simp [hb]
      · simp [hb] at h
    · rw [hr] at h
      simp at h
      obtain ⟨h1, h2⟩ := h
      subst h1
      subst h2
      simpa using ih hr

theorem natDigitsGo_acc (fuel : Nat) : ∀ (n : Nat) (acc : List Nat),
    natDigitsGo fuel n acc = natDigitsGo fuel n [] ++ acc := by
  induction fuel with
  | zero => intro n acc; simp [natDigitsGo]
  | succ fuel ih =>
    intro n acc
    by_cases h : n < 10
    · simp [natDigitsGo, h]
    · rw [natDigitsGo, natDigitsGo, if_neg h, if_neg h, ih _ ((48 + n % 10) :: acc),
        ih _ [48 + n % 10]]
      simp

theorem natDigitsGo_all_digits (fuel : Nat) : ∀ (n : Nat), ∀ c ∈ natDigitsGo fuel n [],
    48 ≤ c ∧ c ≤ 57 := by
  induction fuel with
  | zero => intro n c hc; simp [natDigitsGo] at hc; omega
  | succ fuel ih =>
    intro n c hc
    by_cases h : n < 10
    · simp [natDigitsGo, h] at hc; omega
    · rw [natDigitsGo, if_neg h, natDigitsGo_acc] at hc
      rcases List.mem_append.1 hc with hm | hm
      · exact ih _ _ hm
      · simp at hm; omega

theorem natDigits_all_digits (n : Nat) : ∀ c ∈ natDigits n, 48 ≤ c ∧ c ≤ 57 :=
  natDigitsGo_all_digits n n

theorem natDigits_ne_nil (n : Nat) : natDigits n ≠ [] := by
  unfold natDigits
  cases n with
  | zero => simp [natDigitsGo]
  | succ m =>
    rw [natDigitsGo]
    by_cases h : m + 1 < 10
    · simp [h]
    · rw [if_neg h, natDigitsGo_acc]
      simp

theorem charSextet_sextetChar : ∀ n < 64, charSextet (sextetChar n) = some n := by decide

theorem sextetChar_isSome (n : Nat) : (charSextet (sextetChar n)).isSome = true := by
  by_cases h : n < 64
  · rw [charSextet_sextetChar n h]; rfl
  · have h95 : sextetChar n = 95 := by
      unfold sextetChar
      rw [if_neg (by omega), if_neg (by omega), if_neg (by omega), if_neg (by omega)]
    rw [h95]; rfl

theorem sextetChar_ne_61 (n : Nat) : sextetChar n ≠ 61 := by
  by_cases h : n < 64
  · revert h
    revert n
    decide
  · have h95 : sextetChar n = 95 := by
      unfold sextetChar
      rw [if_neg (by omega), if_neg (by omega), if_neg (by omega), if_neg (by omega)]
    rw [h95]; omega

theorem b64encode_filter (bs : List Nat) :
    (b64encodeBytes bs).filter (fun c => (charSextet c).isSome || c == 61) = b64encodeBytes bs := by
  induction bs using b64encodeBytes.induct with
  | case1 b1 b2 b3 rest ih =>
    simp only [b64encodeBytes]
    simp [List.filter, sextetChar_isSome, ih]
  | case2 b1 b2 => simp [b64encodeBytes, List.filter, sextetChar_isSome]
  | case3 b1 => simp [b64encodeBytes, List.filter, sextetChar_isSome]
  | case4 => rfl

theorem b64encode_length_mod (bs : List Nat) : (b64encodeBytes bs).length % 4 = 0 := by
  induction bs using b64encodeBytes.induct with
  | case1 b1 b2 b3 rest ih => simp [b64encodeBytes]; omega
  | case2 b1 b2 => simp [b64encodeBytes]
  | case3 b1 => simp [b64encodeBytes]
  | case4 => rfl

theorem goQuads_encode (bs : List Nat) (hb : ∀ b ∈ bs, b < 256) :
    goQuads (b64encodeBytes bs) = some bs := by
  induction bs using b64encodeBytes.induct with
  | case1 b1 b2 b3 rest ih =>
    have h1 : b1 < 256 := hb _ (by simp)
    have h2 : b2 < 256 := hb _ (by simp)
    have h3 : b3 < 256 := hb _ (by simp)
    have e1 : charSextet (sextetChar (b1 / 4)) = some (b1 / 4) :=
      charSextet_sextetChar _ (by omega)
    have e2 : charSextet (sextetChar ((b1 % 4) * 16 + b2 / 16)) = some ((b1 % 4) * 16 + b2 / 16) :=
      charSextet_sextetChar _ (by omega)
    have e3 : charSextet (sextetChar ((b2 % 16) * 4 + b3 / 64)) = some ((b2 % 16) * 4 + b3 / 64) :=
      charSextet_sextetChar _ (by omega)
    have e4 : charSextet (sextetChar (b3 % 64)) = some (b3 % 64) :=
      charSextet_sextetChar _ (by omega)
    have ih2 := ih (fun b hm => hb _ (by simp [hm]))
    have n3 := sextetChar_ne_61 ((b2 % 16) * 4 + b3 / 64)
    have n4 := sextetChar_ne_61 (b3 % 64)
    simp [b64encodeBytes, goQuads, n3, n4, e1, e2, e3, e4, ih2]
    omega
  | case2 b1 b2 =>
    have h1 : b1 < 256 := hb _ (by simp)
    have h2 : b2 < 256 := hb _ (by simp)
    have e1 : charSextet (sextetChar (b1 / 4)) = some (b1 / 4) :=
      charSextet_sextetChar _ (by omega)
    have e2 : charSextet (sextetChar ((b1 % 4) * 16 + b2 / 16)) = some ((b1 % 4) * 16 + b2 / 16) :=
      charSextet_sextetChar _ (by omega)
    have e3 : charSextet (sextetChar ((b2 % 16) * 4)) = some ((b2 % 16) * 4) :=
      charSextet_sextetChar _ (by omega)
    have n3 := sextetChar_ne_61 ((b2 % 16) * 4)
    simp [b64encodeBytes, goQuads, n3, e1, e2, e3]
    omega
  | case3 b1 =>
    have h1 : b1 < 256 := hb _ (by simp)
    have e1 : charSextet (sextetChar (b1 / 4)) = some (b1 / 4) :=
      charSextet_sextetChar _ (by omega)
    have e2 : charSextet (sextetChar ((b1 % 4) * 16)) = some ((b1 % 4) * 16) :=
      charSextet_sextetChar _ (by omega)
    simp [b64encodeBytes, goQuads, e1, e2]
    omega
  | case4 => rfl

theorem b64decode_encode (bs : List Nat) (hb : ∀ b ∈ bs, b < 256) :
    b64decode (b64encodeBytes bs) = some bs := by
  unfold b64decode
  rw [b64encode_filter, if_pos (b64encode_length_mod bs)]
  exact goQuads_encode bs hb

theorem parseDigits_append {s : List Nat} (t : List Nat)
    (hs : ∀ c ∈ s, 48 ≤ c ∧ c ≤ 57) (ht : headNotDigit t) :
    parseDigits (s ++ t) = (dval s, s.length, t) := by
  induction s with
  | nil =>
    cases t with
    | nil => rfl
    | cons c r =>
      simp only [List.nil_append, parseDigits, dval, List.length_nil]
      rw [if_neg ht]
  | cons c s ih =>
    have hc := hs c (by simp)
    have ih2 := ih (fun d hd => hs d (by simp [hd]))
    simp only [List.cons_append, parseDigits, if_pos hc, List.append_eq]
    rw [ih2]
    simp [dval]

theorem dval_append_digit (s : List Nat) (c : Nat) :
    dval (s ++ [c]) = dval s * 10 + (c - 48) := by
  induction s with
  | nil => simp [dval]
  | cons d s ih =>
    simp only [List.cons_append, dval, List.append_eq, ih, List.length_append, List.length_cons,
      List.length_nil]
    ring

theorem dval_natDigitsGo : ∀ fuel n, n ≤ fuel → dval (natDigitsGo fuel n []) = n := by
  intro fuel
  induction fuel with
  | zero =>
    intro n hn
    interval_cases n
    simp [natDigitsGo, dval]
  | succ fuel ih =>
    intro n hn
    by_cases h : n < 10
    · simp [natDigitsGo, h, dval]
    · rw [natDigitsGo, if_neg h, natDigitsGo_acc, dval_append_digit, ih (n / 10) (by omega)]
      omega

theorem dval_natDigits (n : Nat) : dval (natDigits n) = n := dval_natDigitsGo n n le_rfl

theorem parseDigits_natDigits (n : Nat) (t : List Nat) (ht : headNotDigit t) :
    parseDigits (natDigits n ++ t) = (n, (natDigits n).length, t) := by
  rw [parseDigits_append t (natDigits_all_digits n) ht, dval_natDigits]

theorem natDigits_length_pos (n : Nat) : (natDigits n).length ≠ 0 := by
  have := natDigits_ne_nil n
  cases h : natDigits n with
  | nil => exact absurd h this
  | cons c r => simp

theorem floor_nat_div_100 (m : ℕ) : (((m : ℚ) / 100) * 100).floor.toNat = m := by
  have h : ((m : ℚ) / 100) * 100 = (m : ℚ) := by field_simp
  rw [h, Rat.floor_def']
  norm_num

theorem decRepr_nat_div_100 (m : ℕ) :
    decRepr ((m : ℚ) / 100) = natDigits (m / 100) ++ 46 ::
      (if m % 100 = 0 then [48]
       else if m % 10 = 0 then [48 + (m % 100) / 10]
       else [48 + (m % 100) / 10, 48 + m % 10]) := by
  unfold decRepr
  rw [floor_nat_div_100]

theorem parseDecimal_decRepr (m : ℕ) (t : List Nat) (ht : headNotDigit t) :
    parseDecimal (decRepr ((m : ℚ) / 100) ++ t) = some ((m : ℚ) / 100, t) := by
  rw [decRepr_nat_div_100]
  by_cases h0 : m % 100 = 0
  · rw [if_pos h0]
    have hfrac : parseDigits (48 :: t) = (0, 1, t) := by
      simpa [dval] using parseDigits_append (s := [48]) t (by simp) ht
    rw [List.append_assoc]
    simp only [List.cons_append, List.nil_append]
    unfold parseDecimal
    rw [parseDigits_natDigits _ _ (by simp [headNotDigit])]
    simp only [if_neg (natDigits_length_pos _), if_pos rfl]
    rw [hfrac]
    norm_num
    have hd : (100 : ℕ) ∣ m := Nat.dvd_of_mod_eq_zero h0
    rw [Nat.cast_div hd (by norm_num)]
    norm_num
  · rw [if_neg h0]
    by_cases h10 : m % 10 = 0
    · rw [if_pos h10]
      have hfrac : parseDigits ((48 + m % 100 / 10) :: t) = (m % 100 / 10, 1, t) := by
        have hdig : ∀ c ∈ [48 + m % 100 / 10], 48 ≤ c ∧ c ≤ 57 := by
          intro c hc; simp at hc; omega
        have := parseDigits_append (s := [48 + m % 100 / 10]) t hdig ht
        simpa [dval] using this
      rw [List.append_assoc]
      simp only [List.cons_append, List.nil_append]
      unfold parseDecimal
      rw [parseDigits_natDigits _ _ (by simp [headNotDigit])]
      simp only [if_neg (natDigits_length_pos _), if_pos rfl]
      rw [hfrac]
      norm_num
      have hm : m = 100 * (m / 100) + 10 * (m % 100 / 10) := by omega
      have hq : (m : ℚ) = 100 * ((m / 100 : ℕ) : ℚ) + 10 * ((m % 100 / 10 : ℕ) : ℚ) := by
        exact_mod_cast congrArg (fun k : ℕ => (k : ℚ)) hm
      rw [hq]
      field_simp
      ring
    · rw [if_neg h10]
      have hfrac : parseDigits ((48 + m % 100 / 10) :: (48 + m % 10) :: t) =
          (m % 100 / 10 * 10 + m % 10, 2, t) := by
        have hdig : ∀ c ∈ [48 + m % 100 / 10, 48 + m % 10], 48 ≤ c ∧ c ≤ 57 := by
          intro c hc; simp at hc; rcases hc with hc | hc <;> omega
        have := parseDigits_append (s := [48 + m % 100 / 10, 48 + m % 10]) t hdig ht
        simpa [dval] using this
      rw [List.append_assoc]
      simp only [List.cons_append, List.nil_append]
      unfold parseDecimal
      rw [parseDigits_natDigits _ _ (by simp [headNotDigit])]
      simp only [if_neg (natDigits_length_pos _), if_pos rfl]
      rw [hfrac]
      norm_num
      have hm : m = 100 * (m / 100) + (m % 100 / 10 * 10 + m % 10) := by omega
      have hq : (m : ℚ) = 100 * ((m / 100 : ℕ) : ℚ) + ((m % 100 / 10 * 10 + m % 10 : ℕ) : ℚ) := by
        exact_mod_cast congrArg (fun k : ℕ => (k : ℚ)) hm
      rw [hq]
      push_cast
      field_simp
      ring

theorem dropLit_append (lit rest : List Nat) : dropLit lit (lit ++ rest) = some rest := by
  induction lit with
  | nil => rfl
  | cons p ps ih => simp [dropLit, ih]

theorem parseNatPart_natDigits (n : Nat) (t : List Nat) (ht : headNotDigit t) :
    parseNatPart (natDigits n ++ t) = some (n, t) := by
  unfold parseNatPart
  rw [parseDigits_natDigits n t ht]
  simp [natDigits_length_pos n]

theorem parsePayload_encodePayload (p : FlashPayload) (m1 m2 : ℕ)
    (h1 : p.n1 = (m1 : ℚ) / 100) (h2 : p.tel = (m2 : ℚ) / 100) :
    parsePayload (encodePayload p) = some p := by
  unfold encodePayload parsePayload
  simp only [List.append_assoc]
  rw [dropLit_append]
  simp only [Option.bind_eq_bind, Option.some_bind]
  rw [parseNatPart_natDigits _ _ (by simp [jn1, headNotDigit])]
  simp only [Option.some_bind]
  rw [dropLit_append]
  simp only [Option.some_bind]
  rw [h1, parseDecimal_decRepr m1 _ (by simp [jtel, headNotDigit])]
  simp only [Option.some_bind]
  rw [dropLit_append]
  simp only [Option.some_bind]
  rw [h2, parseDecimal_decRepr m2 _ (by simp [jv, headNotDigit])]
  simp only [Option.some_bind]
  rw [dropLit_append]
  simp only [Option.some_bind]
  rw [parseNatPart_natDigits _ _ (by simp [jend, headNotDigit])]
  simp only [Option.some_bind]
  have hj : dropLit jend jend = some [] := by simpa using dropLit_append jend []
  rw [hj]
  simp only [Option.some_bind, if_pos rfl]
  rw [← h1, ← h2]
  simp

theorem natDigits_lt (n : Nat) : ∀ b ∈ natDigits n, b < 256 := by
  intro b hb
  have := natDigits_all_digits n b hb
  omega

theorem decRepr_lt (q : ℚ) : ∀ b ∈ decRepr q, b < 256 := by
  intro b hb
  unfold decRepr at hb
  rcases List.mem_append.1 hb with hb | hb
  · exact natDigits_lt _ b hb
  · rcases List.mem_cons.1 hb with hb | hb
    · omega
    · split at hb <;> [skip; split at hb] <;> simp at hb <;> omega

theorem encodePayload_lt (p : FlashPayload) : ∀ b ∈ encodePayload p, b < 256 := by
  intro b hb
  unfold encodePayload at hb
  simp only [List.append_assoc, List.mem_append] at hb
  rcases hb with hb | hb | hb | hb | hb | hb | hb | hb | hb
  · revert hb; revert b; decide
  · exact natDigits_lt _ b hb
  · revert hb; revert b; decide
  · exact decRepr_lt _ b hb
  · revert hb; revert b; decide
  · exact decRepr_lt _ b hb
  · revert hb; revert b; decide
  · exact natDigits_lt _ b hb
  · revert hb; revert b; decide

theorem rsplitDot_isSome_of_mem {l : List Nat} (h : 46 ∈ l) : (rsplitDot l).isSome = true := by
  induction l with
  | nil => simp at h
  | cons b rest ih =>
    rcases List.mem_cons.1 h with hb | hm
    · cases hr : rsplitDot rest with
      | some pr => simp [rsplitDot, hr]
      | none => simp [rsplitDot, hr, ← hb]
    · cases hr : rsplitDot rest with
      | some pr => simp [rsplitDot, hr]
      | none =>
        have := ih hm
        rw [hr] at this
        simp at this

theorem compareDigest_self (a : List Nat) : compareDigest a a = true := by
  simp [compareDigest]

/-- Characterization of verifying a token immediately produced by
`make_flash_token` with the same key: if the 32-byte tag happens to contain
the separator byte 0x2e, `rsplit(b".", 1)` cuts inside the tag and
verification fails with a bad signature; otherwise the original payload is
recovered and only the expiry check remains. -/
theorem verify_make_flash_token (key : List Nat) (now hours now' : Nat) (m1 m2 : ℕ) :
    verify_flash_token key (make_flash_token key now hours ((m1 : ℚ) / 100) ((m2 : ℚ) / 100)) now' =
      (if 46 ∈ hmacSha256 key (encodePayload (flashPayload now hours ((m1 : ℚ) / 100) ((m2 : ℚ) / 100)))
       then .err .badSignature
       else if now + hours * 3600 < now' then .err .expired
       else .ok (flashPayload now hours ((m1 : ℚ) / 100) ((m2 : ℚ) / 100))) := by
  have hmsg := encodePayload_lt (flashPayload now hours ((m1 : ℚ) / 100) ((m2 : ℚ) / 100))
  have hsig := hmacSha256_lt key
    (encodePayload (flashPayload now hours ((m1 : ℚ) / 100) ((m2 : ℚ) / 100)))
  have hbytes : ∀ b ∈ encodePayload (flashPayload now hours ((m1 : ℚ) / 100) ((m2 : ℚ) / 100)) ++
      46 :: hmacSha256 key (encodePayload (flashPayload now hours ((m1 : ℚ) / 100) ((m2 : ℚ) / 100))),
      b < 256 := by
    intro b hb
    rcases List.mem_append.1 hb with hb | hb
    · exact hmsg b hb
    · rcases List.mem_cons.1 hb with hb | hb
      · omega
      · exact hsig b hb
  by_cases hdot : 46 ∈ hmacSha256 key
      (encodePayload (flashPayload now hours ((m1 : ℚ) / 100) ((m2 : ℚ) / 100)))
  · rw [if_pos hdot]
    have hsm := rsplitDot_isSome_of_mem hdot
    obtain ⟨⟨front, back⟩, hsp⟩ := Option.isSome_iff_exists.1 hsm
    have hlen : back.length ≠ (hmacSha256 key
        (encodePayload (flashPayload now hours ((m1 : ℚ) / 100) ((m2 : ℚ) / 100)) ++
          46 :: front)).length := by
      rw [hmacSha256_length]
      have h32 := hmacSha256_length key
        (encodePayload (flashPayload now hours ((m1 : ℚ) / 100) ((m2 : ℚ) / 100)))
      rw [rsplitDot_shape hsp] at h32
      simp at h32
      omega
    simp only [make_flash_token, verify_flash_token, b64decode_encode _ hbytes,
      rsplitDot_append_inner hsp, compareDigest_ne_length hlen, Bool.false_eq_true, if_false]
  · rw [if_neg hdot]
    simp only [make_flash_token, verify_flash_token, b64decode_encode _ hbytes,
      rsplitDot_append_sep hdot, compareDigest_self, if_true,
      parsePayload_encodePayload (flashPayload now hours ((m1 : ℚ) / 100) ((m2 : ℚ) / 100))
        m1 m2 rfl rfl]
    rfl

/-! ### Helper: the canonical bytes of a minted payload, in pure-`Nat` form -/

theorem encodePayload_flashPayload (now hours : Nat) (m1 m2 : ℕ) :
    encodePayload (flashPayload now hours ((m1 : ℚ) / 100) ((m2 : ℚ) / 100)) =
      jexp ++ natDigits (now + hours * 3600) ++ jn1 ++
      (natDigits (m1 / 100) ++ 46 ::
        (if m1 % 100 = 0 then [48]
         else if m1 % 10 = 0 then [48 + m1 % 100 / 10]
         else [48 + m1 % 100 / 10, 48 + m1 % 10])) ++ jtel ++
      (natDigits (m2 / 100) ++ 46 ::
        (if m2 % 100 = 0 then [48]
         else if m2 % 10 = 0 then [48 + m2 % 100 / 10]
         else [48 + m2 % 100 / 10, 48 + m2 % 10])) ++ jv ++ natDigits 1 ++ jend := by
  simp only [encodePayload, flashPayload, decRepr_nat_div_100]

/-- Claim C1: the round-trip property of the spec, `verify(mint(h, overrides)) ==
overrides` fails on the code.  At key `"dev-secret-change-me"`, mint time
1700000000, `h = 4`, overrides `(30, 50)` — all within bounds, checked
immediately after minting — the HMAC tag contains the separator byte 0x2e, so
`rsplit(b".", 1)` cuts inside the tag and verification reports a bad
signature instead of succeeding. -/
theorem c1_roundtrip_fails_at_failing_input :
    verify_flash_token default_token_key
      (make_flash_token default_token_key 1700000000 4 (30 : ℚ) (50 : ℚ)) 1700000000 =
      .err .badSignature := by
  rw [show (30 : ℚ) = ((3000 : ℕ) : ℚ) / 100 by norm_num,
    show (50 : ℚ) = ((5000 : ℕ) : ℚ) / 100 by norm_num,
    verify_make_flash_token, encodePayload_flashPayload]
  rw [if_pos (by decide)]

/-- Claim C3: the expiry window property fails on the code.  For duration
`h = 1` at key `"dev-secret-change-me"`, mint time 1700000000, overrides
`(40, 60)`, the HMAC tag contains 0x2e, so the token is rejected with a bad
signature both at `exp − 1` (where the claim requires success) and at
`exp + 1` (where the claim requires an expiry failure). -/
theorem c3_expiry_window_fails_at_failing_input :
    verify_flash_token default_token_key
      (make_flash_token default_token_key 1700000000 1 (40 : ℚ) (60 : ℚ))
      (1700000000 + 1 * 3600 - 1) = .err .badSignature ∧
    verify_flash_token default_token_key
      (make_flash_token default_token_key 1700000000 1 (40 : ℚ) (60 : ℚ))
      (1700000000 + 1 * 3600 + 1) = .err .badSignature := by
  rw [show (40 : ℚ) = ((4000 : ℕ) : ℚ) / 100 by norm_num,
    show (60 : ℚ) = ((6000 : ℕ) : ℚ) / 100 by norm_num,
    verify_make_flash_token, verify_make_flash_token, encodePayload_flashPayload]
  rw [if_pos (by decide), if_pos (by decide)]
  exact ⟨rfl, rfl⟩

/-- Claim C4: in every reachable program state — base configuration, manager
direct edit, or an applied verified token minted by the program — the active
ceiling fraction `TOPES_ACTIVOS[nivel]` lies in [0, 0.8]. -/
theorem c4_active_ceiling_in_bounds (t : Nivel → ℚ) (h : ReachableTopes t) (v : Nivel) :
    0 ≤ t v ∧ t v ≤ 4 / 5 := by
  induction h with
  | base im af e1 e2 now s h1 h2 =>
    simp only [TOPES_ACTIVOS, h1, h2, Bool.false_eq_true, if_false]
    cases v <;> norm_num [TOPES_BASE]
  | manager e1 e2 now s hb1 hb2 hb3 hb4 =>
    simp only [TOPES_ACTIVOS, Bool.and_self, if_true]
    cases v <;> simp only [manager_topes] <;> constructor <;> first
      | positivity
      | linarith
  | token key mintNow hrs verNow laterNow m1 m2 p af e1 e2 hm1 hm2 hv =>
    rw [verify_make_flash_token] at hv
    split_ifs at hv with hd hexp
    try simp only [VerifyResult.ok.injEq] at hv
    · have hq1 : (m1 : ℚ) ≤ 8000 := by exact_mod_cast hm1
      have hq2 : (m2 : ℚ) ≤ 8000 := by exact_mod_cast hm2
      have hb1 : 0 ≤ (m1 : ℚ) / 100 / 100 := by positivity
      have hb2 : (m1 : ℚ) / 100 / 100 ≤ 4 / 5 := by
        rw [div_div, div_le_iff₀ (by norm_num : (0 : ℚ) < 100 * 100)]
        linarith
      have hb3 : 0 ≤ (m2 : ℚ) / 100 / 100 := by positivity
      have hb4 : (m2 : ℚ) / 100 / 100 ≤ 4 / 5 := by
        rw [div_div, div_le_iff₀ (by norm_num : (0 : ℚ) < 100 * 100)]
        linarith
      subst hv
      simp only [TOPES_ACTIVOS, Bool.and_false, Bool.false_eq_true, if_false, applySession,
        flashPayload]
      split_ifs with hact
      · cases v <;> simp only [token_topes] <;> exact ⟨by assumption, by assumption⟩
      · cases v <;> norm_num [TOPES_BASE]

/-- Witness for C4 at the base state. -/
theorem c4_active_ceiling_in_bounds_witness :
    0 ≤ TOPES_ACTIVOS false false 0 0 0 session0 Nivel.nivel1 ∧
    TOPES_ACTIVOS false false 0 0 0 session0 Nivel.nivel1 ≤ 4 / 5 :=
  c4_active_ceiling_in_bounds _
    (ReachableTopes.base false false 0 0 0 session0 rfl rfl) Nivel.nivel1

/-- Claim C5 counterexample: with the base ceiling of Nivel 1, unit price 1.42 UF,
rate 39000, quantity 1, requested discount 8000, the code does NOT produce
the example figures of the spec — the subtotal of the code includes 19% IVA
(`subtotal = neto + iva_incluido`, line 262), so it is 65902.2, not 55380. -/
theorem c5_counterexample :
    ¬(subtotal (1.42 : ℚ) 39000 1 = 55380 ∧
      monto_tope (1.42 : ℚ) 39000 1 (TOPES_BASE .nivel1) = 13845 ∧
      excede_tope (1.42 : ℚ) 39000 1 8000 (TOPES_BASE .nivel1) = false ∧
      monto_aplicado (1.42 : ℚ) 39000 1 8000 (TOPES_BASE .nivel1) = 8000 ∧
      TotalCLP (1.42 : ℚ) 39000 1 8000 (TOPES_BASE .nivel1) = 47380) := by
  intro h
  have h1 := h.1
  norm_num [subtotal, neto, iva_incluido, precio_unitario_clp_neto, IVA_RATE] at h1

/-- Claim C5 amended: same inputs, with the IVA-inclusive subtotal the code
actually computes: subtotal = 65902.2 (incl. 10522.2 IVA), ceiling amount =
16475.55, the request does not exceed the ceiling, applied discount = 8000,
total = 57902.2. -/
theorem c5_amended :
    subtotal (1.42 : ℚ) 39000 1 = 65902.2 ∧
    iva_incluido (1.42 : ℚ) 39000 1 = 10522.2 ∧
    monto_tope (1.42 : ℚ) 39000 1 (TOPES_BASE .nivel1) = 16475.55 ∧
    excede_tope (1.42 : ℚ) 39000 1 8000 (TOPES_BASE .nivel1) = false ∧
    monto_aplicado (1.42 : ℚ) 39000 1 8000 (TOPES_BASE .nivel1) = 8000 ∧
    TotalCLP (1.42 : ℚ) 39000 1 8000 (TOPES_BASE .nivel1) = 57902.2 := by
  refine ⟨?_, ?_, ?_, ?_, ?_, ?_⟩ <;>
    norm_num [TotalCLP, DescuentoCLP, monto_aplicado, excede_tope, monto_tope, subtotal,
      neto, iva_incluido, precio_unitario_clp_neto, IVA_RATE, TOPES_BASE, min_def, max_def]

/-- Claim C6 counterexample: the payload carries the RAW percentages, not
fractions.  Verifying the token minted at 1700000001 with overrides (30, 50)
succeeds and returns `n1 = 30`, which is far outside [0, 0.8]. -/
theorem c6_counterexample :
    verify_flash_token default_token_key
      (make_flash_token default_token_key 1700000001 4 (30 : ℚ) (50 : ℚ)) 1700000001 =
      .ok ⟨1700014401, 30, 50, 1⟩ ∧ ¬((30 : ℚ) ≤ 0.8) := by
  constructor
  · rw [show (30 : ℚ) = ((3000 : ℕ) : ℚ) / 100 by norm_num,
      show (50 : ℚ) = ((5000 : ℕ) : ℚ) / 100 by norm_num,
      verify_make_flash_token, encodePayload_flashPayload]
    rw [if_neg (by decide), if_neg (by decide)]
    norm_num [flashPayload]
  · norm_num

/-- Claim C6 amended: the payload stores the override percentages unchanged
(values in [0, 80]); on success `verify` returns those raw percentages, and
the conversion to fractions happens at the application site
(`payload["n1"] / 100.0`, lines 134–137), which lands in [0, 0.8] for
UI-bounded mint inputs. -/
theorem c6_amended (key : List Nat) (mintNow hrs verNow : Nat) (m1 m2 : ℕ) (p : FlashPayload)
    (hm1 : m1 ≤ 8000) (hm2 : m2 ≤ 8000)
    (hv : verify_flash_token key
      (make_flash_token key mintNow hrs ((m1 : ℚ) / 100) ((m2 : ℚ) / 100)) verNow = .ok p) :
    p.n1 = (m1 : ℚ) / 100 ∧ p.tel = (m2 : ℚ) / 100 ∧
    0 ≤ p.n1 / 100 ∧ p.n1 / 100 ≤ 4 / 5 ∧ 0 ≤ p.tel / 100 ∧ p.tel / 100 ≤ 4 / 5 := by
  rw [verify_make_flash_token] at hv
  split_ifs at hv with hd hexp
  try simp only [VerifyResult.ok.injEq] at hv
  · have hq1 : (m1 : ℚ) ≤ 8000 := by exact_mod_cast hm1
    have hq2 : (m2 : ℚ) ≤ 8000 := by exact_mod_cast hm2
    subst hv
    refine ⟨rfl, rfl, ?_, ?_, ?_, ?_⟩
    · show (0 : ℚ) ≤ (m1 : ℚ) / 100 / 100
      positivity
    · show (m1 : ℚ) / 100 / 100 ≤ 4 / 5
      rw [div_div, div_le_iff₀ (by norm_num : (0 : ℚ) < 100 * 100)]
      linarith
    · show (0 : ℚ) ≤ (m2 : ℚ) / 100 / 100
      positivity
    · show (m2 : ℚ) / 100 / 100 ≤ 4 / 5
      rw [div_div, div_le_iff₀ (by norm_num : (0 : ℚ) < 100 * 100)]
      linarith

/-- Witness for C6 amended, at the concrete token of the counterexample. -/
theorem c6_amended_witness :
    (⟨1700014401, 30, 50, 1⟩ : FlashPayload).n1 = ((3000 : ℕ) : ℚ) / 100 ∧
    (⟨1700014401, 30, 50, 1⟩ : FlashPayload).tel = ((5000 : ℕ) : ℚ) / 100 ∧
    0 ≤ (⟨1700014401, 30, 50, 1⟩ : FlashPayload).n1 / 100 ∧
    (⟨1700014401, 30, 50, 1⟩ : FlashPayload).n1 / 100 ≤ 4 / 5 ∧
    0 ≤ (⟨1700014401, 30, 50, 1⟩ : FlashPayload).tel / 100 ∧
    (⟨1700014401, 30, 50, 1⟩ : FlashPayload).tel / 100 ≤ 4 / 5 :=
  c6_amended default_token_key 1700000001 4 1700000001 3000 5000 ⟨1700014401, 30, 50, 1⟩
    (by norm_num) (by norm_num)
    (by
      rw [verify_make_flash_token, encodePayload_flashPayload]
      rw [if_neg (by decide), if_neg (by decide)]
      norm_num [flashPayload])

/-- Claim C7: when a manager has toggled Ofertas Flash (branch 1, line 180)
while the session also holds an active token override, the active ceilings are
the values edited by the manager — the `elif flash_active()` branch is skipped, so
the direct manager edit takes precedence and only one source is in effect. -/
theorem c7_manager_edit_precedence (top_n1 top_tel : ℚ) (now : Nat) (s : Session)
    (hactive : flash_active s now = true) :
    TOPES_ACTIVOS true true top_n1 top_tel now s = manager_topes top_n1 top_tel := by
  simp [TOPES_ACTIVOS]

/-- Witness for C7 with an active token override in the session. -/
theorem c7_manager_edit_precedence_witness :
    TOPES_ACTIVOS true true 30 50 5 ⟨10, some (0.3, 0.5)⟩ = manager_topes 30 50 :=
  c7_manager_edit_precedence 30 50 5 ⟨10, some (0.3, 0.5)⟩ (by decide)

/-- Claim C8: token verification is total — for every incoming token it either
succeeds (and the override is applied) or fails with one of the three error
kinds, in which case the session state is unchanged and the warning is
surfaced (`st.warning`, line 143); no failure escapes the handler. -/
theorem c8_verify_failure_never_fatal (key tok : List Nat) (now : Nat) (s : Session) :
    (∃ p, verify_flash_token key tok now = .ok p ∧
      apply_token_param key (some tok) now s = (applySession p, none)) ∨
    (∃ e, verify_flash_token key tok now = .err e ∧
      apply_token_param key (some tok) now s = (s, some e)) := by
  cases hv : verify_flash_token key tok now with
  | ok p => exact Or.inl ⟨p, rfl, by simp [apply_token_param, hv]⟩
  | err e => exact Or.inr ⟨e, rfl, by simp [apply_token_param, hv]⟩

/-- Claim C9 counterexample: with no configured signing key the program
resolves to the built-in default `"dev-secret-change-me"` and surfaces no
configuration error (the flag is `false`), and it happily signs and verifies
with that default key. -/
theorem c9_counterexample :
    token_key_startup none = (default_token_key, false) ∧
    verify_flash_token (TOKEN_KEY none)
      (make_flash_token (TOKEN_KEY none) 1700000001 2 (30 : ℚ) (50 : ℚ)) 1700000001 =
      .ok ⟨1700000001 + 2 * 3600, 30, 50, 1⟩ := by
  constructor
  · rfl
  · rw [show TOKEN_KEY none = default_token_key from rfl,
      show (30 : ℚ) = ((3000 : ℕ) : ℚ) / 100 by norm_num,
      show (50 : ℚ) = ((5000 : ℕ) : ℚ) / 100 by norm_num,
      verify_make_flash_token, encodePayload_flashPayload]
    rw [if_neg (by decide), if_neg (by decide)]
    norm_num [flashPayload]

/-- Claim C9 amended: when no token-signing key is configured the program
silently falls back to the built-in default key for both minting and
verification, and no configuration error is ever surfaced. -/
theorem c9_amended :
    (∀ cfg, (token_key_startup cfg).2 = false) ∧
    TOKEN_KEY none = default_token_key ∧
    (∀ now hrs n1 tel, make_flash_token (TOKEN_KEY none) now hrs n1 tel =
      make_flash_token default_token_key now hrs n1 tel) ∧
    (∀ tok now, verify_flash_token (TOKEN_KEY none) tok now =
      verify_flash_token default_token_key tok now) :=
  ⟨fun _ => rfl, rfl, fun _ _ _ _ => rfl, fun _ _ => rfl⟩

/-- Claim C10: input coercion is safe — `cantidad` is always an integer ≥ 1
(never zero or negative); `parse_num` never raises: it returns either the
parsed value or the default of the caller; and a zero subtotal short-circuits both
discount fractions to 0 instead of dividing by zero. -/
theorem c10_inputs_coerced_safely :
    (∀ s, 1 ≤ cantidad s) ∧
    (∀ s d, parse_num s d = d ∨
      ∃ q, pyFloatParse (cleanNum s) = some q ∧ parse_num s d = q) ∧
    (∀ (precio_uf uf_valor : ℚ) (cant : ℤ) (monto max_desc : ℚ),
      subtotal precio_uf uf_valor cant = 0 →
        porcentaje_solicitado precio_uf uf_valor cant monto = 0 ∧
        porcentaje_aplicado precio_uf uf_valor cant monto max_desc = 0) := by
  refine ⟨fun s => le_max_right _ _, fun s d => ?_, fun a b c m x h0 => ?_⟩
  · cases hq : pyFloatParse (cleanNum s) with
    | none => exact Or.inl (by simp [parse_num, hq])
    | some q => exact Or.inr ⟨q, rfl, by simp [parse_num, hq]⟩
  · constructor <;> simp [porcentaje_solicitado, porcentaje_aplicado, h0]

/-- Witness for C10: empty quantity string coerces to 1; zero unit price gives
a zero subtotal and zero discount fractions. -/
theorem c10_inputs_coerced_safely_witness :
    1 ≤ cantidad [] ∧
    (porcentaje_solicitado 0 39000 1 8000 = 0 ∧ porcentaje_aplicado 0 39000 1 8000 0.25 = 0) :=
  ⟨c10_inputs_coerced_safely.1 [],
   c10_inputs_coerced_safely.2.2 0 39000 1 8000 0.25
     (by norm_num [subtotal, neto, iva_incluido, precio_unitario_clp_neto])⟩
